import Mathlib

/-!
Shallow embedding of `src/Agent.py` (class `ToiletLocatorAgent`).

Modelling conventions:
* The pandas dataframe is a `List FacilityRow`; a row's columns are kept in
  dataframe order.  Coordinates and distances are only ever compared,
  interpolated into strings and forwarded by the code (`great_circle` is never
  called), so they are represented by their decimal text rendering.
* The external NLP collaborators (spacy's NER, nltk's tokenizer and stop-word
  filter, fuzzywuzzy's scorers) are opaque third-party libraries; they are
  abstracted as an `NLP` record of pure functions.  `process.extractOne` of
  fuzzywuzzy is embedded by its documented contract: score every choice with
  the (abstracted) scorer and keep the first highest-scoring choice.
* Python dict results of `process_query` are association lists in insertion
  order, so that which keys a result carries is part of the model.
* Paths on which the Python code would raise (tuple-unpacking `None`, an
  out-of-bounds `.iloc[0]`) are `Except.error`.
-/

namespace ToiletLocator

/-- One row of the agent's reference table, with the column names of the
dataframe built in `ToiletLocatorAgent.__init__`. -/
structure FacilityRow where
  stop_id : String
  stop_lat : String
  stop_lon : String
  stop_name : String
  nearest_washroom_id : String
  washroom_latitude : String
  washroom_longitude : String
  distance : String
  washroom_address : String
deriving DecidableEq, Repr

/-- A Python value stored in a result dict: a bool or a string (numeric values
are represented by their decimal rendering). -/
inductive PyVal where
  | pyBool : Bool → PyVal
  | pyStr : String → PyVal
deriving DecidableEq, Repr

/-- The external NLP collaborators of `Agent.py`, abstracted as pure
functions: `ner q` is the list of texts of the spacy entities of `q` labelled
`LOC` or `GPE`, in document order; `tokenizeFilter q` is the nltk pipeline of
`extract_location` (lowercase, tokenize, keep alphabetic non-stop-word tokens,
join with spaces); `pRatio` is `fuzz.partial_ratio`; `wratio` is the default
scorer used by `process.extractOne`. -/
structure NLP where
  ner : String → List String
  tokenizeFilter : String → String
  pRatio : String → String → Nat
  wratio : String → String → Nat

/-- The state of a `ToiletLocatorAgent`: the reference dataframe `df` and the
derived stop-name index `stop_names`. -/
structure Agent where
  df : List FacilityRow
  stop_names : List String
deriving DecidableEq, Repr

/-- `ToiletLocatorAgent.__init__`: store the table and build the stop-name
index `self.stop_names = self.df['stop_name'].tolist()`. -/
def mkAgent (rows : List FacilityRow) : Agent :=
  ⟨rows, rows.map (fun r => r.stop_name)⟩

/-- The sample row for the Connaught Place stop. -/
def connaughtRow : FacilityRow :=
  ⟨"BS003", "28.6329", "77.2495", "Connaught Place", "PTU-15_003", "28.6339", "77.2505", "100", "Connaught Place Block A"⟩

/-- The default sample dataset built by `__init__` when `data_path` is None. -/
def sampleRows : List FacilityRow :=
  [⟨"BS001", "28.6129", "77.2295", "Arjun Nagar", "PTU-13_001", "28.6139", "77.2305", "150", "Near Arjun Nagar Market"⟩,
   ⟨"BS002", "28.6229", "77.2395", "Karol Bagh", "PTU-14_002", "28.6239", "77.2405", "200", "Karol Bagh Metro Station"⟩,
   connaughtRow,
   ⟨"BS004", "28.6429", "77.2595", "Lajpat Nagar", "PTU-16_004", "28.6439", "77.2605", "180", "Lajpat Nagar Central Market"⟩,
   ⟨"BS005", "28.6529", "77.2695", "Hauz Khas", "PTU-17_005", "28.6539", "77.2705", "120", "Hauz Khas Village Entrance"⟩]

/-- The agent built with the default sample dataset. -/
def sampleAgent : Agent := mkAgent sampleRows

/-- The embedding of Python's `str.lower()`: lowercase every character.  (The
character-list form is used because `String.toLower`'s position-based
recursion does not reduce definitionally.) -/
def pyLower (s : String) : String := String.mk (s.data.map Char.toLower)

/-- One iteration of the fuzzy-fallback loop of `extract_location`: the
accumulator `(best_match, highest_score)` is replaced exactly when
`score > highest_score and score > 70`.  `score` abstracts
`fuzz.partial_ratio(filtered_tokens, stop_name.lower())`. -/
def fuzzyStep (score : String → Nat) (acc : Option String × Nat) (name : String) :
    Option String × Nat :=
  if score name > acc.2 ∧ score name > 70 then (some name, score name) else acc

/-- The fuzzy-fallback loop of `extract_location`, starting from
`best_match = None, highest_score = 0`. -/
def fuzzyBest (score : String → Nat) (names : List String) : Option String × Nat :=
  names.foldl (fuzzyStep score) (none, 0)

/-- `ToiletLocatorAgent.extract_location`: take the first NER location entity;
if there is none, fall back to the fuzzy loop over the stop names (a falsy —
empty — best match is discarded by `if best_match:`), and return
`locations[0] if locations else None`. -/
def extract_location (E : NLP) (a : Agent) (query : String) : Option String :=
  let entities := E.ner query
  let locations :=
    if entities.isEmpty then
      match (fuzzyBest (fun n => E.pRatio (E.tokenizeFilter query) (pyLower n)) a.stop_names).1 with
      | some best => if best = "" then [] else [best]
      | none => []
    else entities
  locations.head?

/-- One comparison step of fuzzywuzzy's `process.extractOne`: keep the current
best `(choice, score)` pair unless the new choice scores strictly higher
(Python's `max` keeps the first maximal element). -/
def extractOneStep (score : String → Nat) (acc : Option (String × Nat)) (c : String) :
    Option (String × Nat) :=
  match acc with
  | none => some (c, score c)
  | some p => if score c > p.2 then some (c, score c) else acc

/-- The external library call `process.extractOne(location, choices)` of
fuzzywuzzy, by its documented contract: score every choice and return the
first choice attaining the highest score, or `none` for an empty choice list
(in which case the Python caller's tuple unpacking raises). -/
def extractOne (score : String → Nat) (choices : List String) : Option (String × Nat) :=
  choices.foldl (extractOneStep score) none

/-- The dict built by `find_nearest_toilet` from the first dataframe row whose
`stop_name` equals the resolved location. -/
structure ToiletInfo where
  stop_name : String
  stop_lat : String
  stop_lon : String
  washroom_id : String
  washroom_lat : String
  washroom_lon : String
  washroom_address : String
  distance : String
deriving DecidableEq, Repr

/-- The field selection of `find_nearest_toilet`'s returned dict from a row. -/
def toInfo (r : FacilityRow) : ToiletInfo :=
  ⟨r.stop_name, r.stop_lat, r.stop_lon, r.nearest_washroom_id,
   r.washroom_latitude, r.washroom_longitude, r.washroom_address, r.distance⟩

/-- `ToiletLocatorAgent.find_nearest_toilet`: exact stop-name membership check
first; otherwise `process.extractOne` with the `< 60` confidence cut-off; then
`self.df[self.df['stop_name'] == location].iloc[0]`.  The two `error` cases
are the places where the Python code would raise (unpacking `extractOne`'s
`None` for an empty table, `.iloc[0]` on an empty selection). -/
def find_nearest_toilet (E : NLP) (a : Agent) (location : String) : Except String (Option ToiletInfo) :=
  if a.stop_names.contains location then
    match (a.df.filter (fun r => r.stop_name == location)).head? with
    | some r => .ok (some (toInfo r))
    | none => .error "single positional indexer is out-of-bounds"
  else
    match extractOne (E.wratio location) a.stop_names with
    | none => .error "cannot unpack non-iterable NoneType object"
    | some p =>
      if p.2 < 60 then .ok none
      else
        match (a.df.filter (fun r => r.stop_name == p.1)).head? with
        | some r => .ok (some (toInfo r))
        | none => .error "single positional indexer is out-of-bounds"

/-- `ToiletLocatorAgent.get_google_maps_link`: the fixed-format f-string. -/
def get_google_maps_link (from_lat from_lon to_lat to_lon : String) : String :=
  "https://www.google.com/maps/dir/?api=1&origin=" ++ from_lat ++ "," ++ from_lon ++
    "&destination=" ++ to_lat ++ "," ++ to_lon ++ "&travelmode=walking"

/-- The failure dict `process_query` returns when no location was identified:
it carries exactly the keys `success` and `message`. -/
def noLocationResult : List (String × PyVal) :=
  [("success", .pyBool false),
   ("message", .pyStr "I couldn't identify a location in your query. Please mention a specific bus stand or area.")]

/-- The failure dict `process_query` returns when no stop matched, with the
extracted location interpolated; it carries exactly `success` and `message`. -/
def noMatchResult (location : String) : List (String × PyVal) :=
  [("success", .pyBool false),
   ("message", .pyStr ("I couldn't find a bus stand matching '" ++ location ++ "' in our database."))]

/-- The success message of `process_query`, with the matched record's fields
interpolated. -/
def successMessage (info : ToiletInfo) : String :=
  "I found a public toilet near " ++ info.stop_name ++
    " bus stand. It's located at " ++ info.washroom_address ++
    ", approximately " ++ info.distance ++
    " meters away. You can use the Google Maps link below for directions."

/-- The success dict of `process_query`, keys in the insertion order of the
Python dict literal. -/
def successDict (info : ToiletInfo) (maps_link : String) : List (String × PyVal) :=
  [("success", .pyBool true),
   ("stop_name", .pyStr info.stop_name),
   ("stop_lat", .pyStr info.stop_lat),
   ("stop_lon", .pyStr info.stop_lon),
   ("washroom_id", .pyStr info.washroom_id),
   ("washroom_lat", .pyStr info.washroom_lat),
   ("washroom_lon", .pyStr info.washroom_lon),
   ("washroom_address", .pyStr info.washroom_address),
   ("distance", .pyStr info.distance),
   ("directions_link", .pyStr maps_link),
   ("message", .pyStr (successMessage info))]

/-- `ToiletLocatorAgent.process_query`: extract a location (Python's
`if not location:` also treats the empty string as missing), resolve it with
`find_nearest_toilet`, and assemble the result dict with the maps link built
from the matched record's coordinates. -/
def process_query (E : NLP) (a : Agent) (query : String) : Except String (List (String × PyVal)) :=
  match extract_location E a query with
  | none => .ok noLocationResult
  | some location =>
    if location = "" then .ok noLocationResult
    else
      match find_nearest_toilet E a location with
      | .error e => .error e
      | .ok none => .ok (noMatchResult location)
      | .ok (some info) =>
        .ok (successDict info
          (get_google_maps_link info.stop_lat info.stop_lon info.washroom_lat info.washroom_lon))

/-- State-passing form of `extract_location`: the method reads `self` and
assigns nothing to it, so it returns the agent it received. -/
def extract_location_st (E : NLP) (a : Agent) (query : String) : Agent × Option String :=
  (a, extract_location E a query)

/-- State-passing form of `find_nearest_toilet` (reads `self`, assigns
nothing). -/
def find_nearest_toilet_st (E : NLP) (a : Agent) (location : String) :
    Agent × Except String (Option ToiletInfo) :=
  (a, find_nearest_toilet E a location)

/-- State-passing form of `get_google_maps_link` (does not touch `self`). -/
def get_google_maps_link_st (a : Agent) (from_lat from_lon to_lat to_lon : String) :
    Agent × String :=
  (a, get_google_maps_link from_lat from_lon to_lat to_lon)

/-- State-passing form of `process_query`, threading the agent through the
method calls exactly as the Python body sequences them. -/
def process_query_st (E : NLP) (a : Agent) (query : String) :
    Agent × Except String (List (String × PyVal)) :=
  let p1 := extract_location_st E a query
  match p1.2 with
  | none => (p1.1, .ok noLocationResult)
  | some location =>
    if location = "" then (p1.1, .ok noLocationResult)
    else
      let p2 := find_nearest_toilet_st E p1.1 location
      match p2.2 with
      | .error e => (p2.1, .error e)
      | .ok none => (p2.1, .ok (noMatchResult location))
      | .ok (some info) =>
        let p3 := get_google_maps_link_st p2.1 info.stop_lat info.stop_lon
          info.washroom_lat info.washroom_lon
        (p3.1, .ok (successDict info p3.2))

/-- Specification-side maximum of `score` over a list of names (0 when the
list is empty). -/
def maxScore (score : String → Nat) : List String → Nat
  | [] => 0
  | n :: rest => Nat.max (score n) (maxScore score rest)

/-- Specification-side first name attaining the maximum score. -/
def firstMax (score : String → Nat) (names : List String) : Option String :=
  names.find? (fun n => score n == maxScore score names)

/-- Test NLP environment: no entities, zero scores everywhere. -/
def Enull : NLP := ⟨fun _ => [], fun q => q, fun _ _ => 0, fun _ _ => 0⟩

/-- Test NLP environment: NER tags the whole query as a location. -/
def Eecho : NLP := ⟨fun q => [q], fun q => q, fun _ _ => 0, fun _ _ => 0⟩

/-- Test NLP environment: no entities; both scorers score a candidate by a
multiple of its length, so scores differ across the sample stop names. -/
def Elen : NLP := ⟨fun _ => [], fun q => q, fun _ n => 7 * n.length, fun _ n => 5 * n.length⟩

/-- Unfolding equation of `maxScore` on a cons cell. -/
theorem maxScore_cons (score : String → Nat) (n : String) (rest : List String) :
    maxScore score (n :: rest) = Nat.max (score n) (maxScore score rest) := rfl

/-- When the head scores strictly below the maximum of the tail, the head is
irrelevant to both the maximum and the first maximiser. -/
theorem firstMax_cons_of_lt {score : String → Nat} {n : String} {rest : List String}
    (h : score n < maxScore score rest) :
    maxScore score (n :: rest) = maxScore score rest ∧
    firstMax score (n :: rest) = firstMax score rest := by
  have hmax : maxScore score (n :: rest) = maxScore score rest := by
    rw [maxScore_cons]; exact Nat.max_eq_right (Nat.le_of_lt h)
  refine ⟨hmax, ?_⟩
  unfold firstMax
  rw [hmax]
  exact List.find?_cons_of_neg _ (by simp only [beq_iff_eq]; omega)

/-- When the head scores at least the maximum of the tail, it is the first
maximiser. -/
theorem firstMax_cons_of_ge {score : String → Nat} {n : String} {rest : List String}
    (h : maxScore score rest ≤ score n) :
    maxScore score (n :: rest) = score n ∧
    firstMax score (n :: rest) = some n := by
  have hmax : maxScore score (n :: rest) = score n := by
    rw [maxScore_cons]; exact Nat.max_eq_left h
  refine ⟨hmax, ?_⟩
  unfold firstMax
  rw [hmax]
  exact List.find?_cons_of_pos _ (by simp)

/-- The first maximiser is a member of the list and attains the maximum. -/
theorem firstMax_mem {score : String → Nat} {names : List String} {c : String}
    (h : firstMax score names = some c) :
    c ∈ names ∧ score c = maxScore score names := by
  refine ⟨List.mem_of_find?_eq_some h, ?_⟩
  have hp := List.find?_some h
  simpa using hp

/-- A nonempty list has a first maximiser. -/
theorem firstMax_isSome {score : String → Nat} :
    ∀ {names : List String}, names ≠ [] → ∃ c, firstMax score names = some c := by
  intro names
  induction names with
  | nil => intro h; exact absurd rfl h
  | cons n rest ih =>
    intro _
    by_cases hle : maxScore score rest ≤ score n
    · exact ⟨n, (firstMax_cons_of_ge hle).2⟩
    · have hlt : score n < maxScore score rest := by omega
      have hrest : rest ≠ [] := by
        intro hr
        rw [hr] at hlt
        simp [maxScore] at hlt
      obtain ⟨c, hc⟩ := ih hrest
      exact ⟨c, by rw [(firstMax_cons_of_lt hlt).2]; exact hc⟩

/-- An upper bound on every score bounds the maximum. -/
theorem maxScore_le_of_forall {score : String → Nat} {names : List String} {k : Nat}
    (h : ∀ n ∈ names, score n ≤ k) : maxScore score names ≤ k := by
  induction names with
  | nil => simp [maxScore]
  | cons n rest ih =>
    rw [maxScore_cons]
    exact Nat.max_le.mpr
      ⟨h n (List.mem_cons_self n rest), ih (fun m hm => h m (List.mem_cons_of_mem n hm))⟩

/-- Evaluation of `extractOneStep` on a `some` accumulator. -/
theorem extractOneStep_some (score : String → Nat) (b : String) (m : Nat) (c : String) :
    extractOneStep score (some (b, m)) c =
      if m < score c then some (c, score c) else some (b, m) := rfl

/-- Evaluation of `fuzzyStep`: Python's `score > highest_score and score > 70`. -/
theorem fuzzyStep_eval (score : String → Nat) (ob : Option String) (m : Nat) (n : String) :
    fuzzyStep score (ob, m) n =
      if m < score n ∧ 70 < score n then (some n, score n) else (ob, m) := rfl

/-- Running `process.extractOne`'s comparison loop from an already-populated
best pair: the result is unchanged unless the remaining choices strictly beat
it, in which case the first maximiser of the remaining choices wins. -/
theorem extractOne_go (score : String → Nat) :
    ∀ (names : List String) (b : String) (m : Nat),
      names.foldl (extractOneStep score) (some (b, m)) =
        if m < maxScore score names
        then (firstMax score names).map (fun c => (c, maxScore score names))
        else some (b, m) := by
  intro names
  induction names with
  | nil =>
    intro b m
    simp [maxScore]
  | cons n rest ih =>
    intro b m
    rw [List.foldl_cons, extractOneStep_some]
    by_cases hs : m < score n
    · rw [if_pos hs, ih n (score n)]
      by_cases h2 : score n < maxScore score rest
      · obtain ⟨hm1, hm2⟩ := firstMax_cons_of_lt h2
        rw [if_pos h2, hm1, hm2, if_pos (by omega)]
      · have hge : maxScore score rest ≤ score n := by omega
        obtain ⟨hm1, hm2⟩ := firstMax_cons_of_ge hge
        rw [if_neg h2, hm1, hm2, if_pos (by omega)]
        rfl
    · rw [if_neg hs, ih b m]
      by_cases h2 : m < maxScore score rest
      · have hlt : score n < maxScore score rest := by omega
        obtain ⟨hm1, hm2⟩ := firstMax_cons_of_lt hlt
        rw [if_pos h2, hm1, hm2, if_pos h2]
      · have hub : maxScore score (n :: rest) ≤ m := by
          rw [maxScore_cons]
          exact Nat.max_le.mpr ⟨by omega, by omega⟩
        rw [if_neg h2, if_neg (by omega)]

/-- Characterisation of the embedded `process.extractOne`: it returns the
first choice attaining the maximal score, paired with that score, and `none`
exactly on an empty choice list. -/
theorem extractOne_eq (score : String → Nat) (names : List String) :
    extractOne score names =
      (firstMax score names).map (fun c => (c, maxScore score names)) := by
  cases names with
  | nil => rfl
  | cons n rest =>
    unfold extractOne
    rw [List.foldl_cons,
      show extractOneStep score none n = some (n, score n) from rfl,
      extractOne_go score rest n (score n)]
    by_cases h2 : score n < maxScore score rest
    · obtain ⟨hm1, hm2⟩ := firstMax_cons_of_lt h2
      rw [if_pos h2, hm1, hm2]
    · have hge : maxScore score rest ≤ score n := by omega
      obtain ⟨hm1, hm2⟩ := firstMax_cons_of_ge hge
      rw [if_neg h2, hm1, hm2]
      rfl

/-- Running the fuzzy-fallback loop from an accumulator whose score already
exceeds the 70 threshold. -/
theorem fuzzyBest_go (score : String → Nat) :
    ∀ (names : List String) (b : String) (m : Nat), 70 < m →
      names.foldl (fuzzyStep score) (some b, m) =
        if m < maxScore score names
        then (firstMax score names, maxScore score names)
        else (some b, m) := by
  intro names
  induction names with
  | nil =>
    intro b m _
    simp [maxScore]
  | cons n rest ih =>
    intro b m hm
    rw [List.foldl_cons, fuzzyStep_eval]
    by_cases hs : m < score n
    · have h70 : 70 < score n := by omega
      rw [if_pos ⟨hs, h70⟩, ih n (score n) h70]
      by_cases h2 : score n < maxScore score rest
      · obtain ⟨hm1, hm2⟩ := firstMax_cons_of_lt h2
        rw [if_pos h2, hm1, hm2, if_pos (by omega)]
      · have hge : maxScore score rest ≤ score n := by omega
        obtain ⟨hm1, hm2⟩ := firstMax_cons_of_ge hge
        rw [if_neg h2, hm1, hm2, if_pos (by omega)]
    · rw [if_neg (by omega), ih b m hm]
      by_cases h2 : m < maxScore score rest
      · have hlt : score n < maxScore score rest := by omega
        obtain ⟨hm1, hm2⟩ := firstMax_cons_of_lt hlt
        rw [if_pos h2, hm1, hm2, if_pos h2]
      · have hub : maxScore score (n :: rest) ≤ m := by
          rw [maxScore_cons]
          exact Nat.max_le.mpr ⟨by omega, by omega⟩
        rw [if_neg h2, if_neg (by omega)]

/-- Characterisation of the fuzzy-fallback loop: the final `best_match` is the
first stop name attaining the maximal score when that maximum exceeds 70, and
`None` (with `highest_score = 0`) otherwise. -/
theorem fuzzyBest_eq (score : String → Nat) (names : List String) :
    fuzzyBest score names =
      if 70 < maxScore score names
      then (firstMax score names, maxScore score names)
      else (none, 0) := by
  induction names with
  | nil => simp [fuzzyBest, maxScore]
  | cons n rest ih =>
    unfold fuzzyBest at ih ⊢
    rw [List.foldl_cons, fuzzyStep_eval]
    by_cases hs : 70 < score n
    · rw [if_pos ⟨by omega, hs⟩, fuzzyBest_go score rest n (score n) hs]
      by_cases h2 : score n < maxScore score rest
      · obtain ⟨hm1, hm2⟩ := firstMax_cons_of_lt h2
        rw [if_pos h2, hm1, hm2, if_pos (by omega)]
      · have hge : maxScore score rest ≤ score n := by omega
        obtain ⟨hm1, hm2⟩ := firstMax_cons_of_ge hge
        rw [if_neg h2, hm1, hm2, if_pos (by omega)]
    · rw [if_neg (by omega), ih]
      by_cases h2 : 70 < maxScore score rest
      · have hlt : score n < maxScore score rest := by omega
        obtain ⟨hm1, hm2⟩ := firstMax_cons_of_lt hlt
        rw [if_pos h2, hm1, hm2, if_pos (by omega)]
      · have hub : maxScore score (n :: rest) ≤ 70 := by
          rw [maxScore_cons]
          exact Nat.max_le.mpr ⟨by omega, by omega⟩
        rw [if_neg h2, if_neg (by omega)]

/-- A stop name taken from the index always selects at least one dataframe
row, so `.iloc[0]` succeeds on it. -/
theorem filter_head_of_mem {rows : List FacilityRow} {loc : String}
    (h : loc ∈ (mkAgent rows).stop_names) :
    ∃ r, ((mkAgent rows).df.filter (fun x => x.stop_name == loc)).head? = some r := by
  have h' : loc ∈ rows.map (fun r => r.stop_name) := h
  obtain ⟨r, hr, hname⟩ := List.mem_map.mp h'
  have hmem : r ∈ rows.filter (fun x => x.stop_name == loc) :=
    List.mem_filter.mpr ⟨hr, by simp [hname]⟩
  cases hh : (rows.filter (fun x => x.stop_name == loc)).head? with
  | none =>
    rw [List.head?_eq_none_iff] at hh
    rw [hh] at hmem
    exact absurd hmem (List.not_mem_nil r)
  | some r2 => exact ⟨r2, hh⟩

/-- In the branch where NER produced no entities, `extract_location` is the
truthiness-filtered result of the fuzzy-fallback loop. -/
theorem extract_location_fb (E : NLP) (a : Agent) (q : String) (hner : E.ner q = []) :
    extract_location E a q =
      match (fuzzyBest (fun n => E.pRatio (E.tokenizeFilter q) (pyLower n)) a.stop_names).1 with
      | some best => if best = "" then none else some best
      | none => none := by
  unfold extract_location
  rw [hner]
  simp only [List.isEmpty_nil, if_true]
  cases hfb : (fuzzyBest (fun n => E.pRatio (E.tokenizeFilter q) (pyLower n)) a.stop_names).1 with
  | none => rfl
  | some best =>
    by_cases hb : best = ""
    · simp [hb]
    · simp [hb]

/-- The state-passing composition agrees with the pure result paired with the
unchanged agent. -/
theorem process_query_st_eq (E : NLP) (a : Agent) (q : String) :
    process_query_st E a q = (a, process_query E a q) := by
  simp only [process_query_st, process_query, extract_location_st, find_nearest_toilet_st,
    get_google_maps_link_st]
  cases extract_location E a q with
  | none => rfl
  | some loc =>
    by_cases hl : loc = ""
    · simp [hl]
    · simp only [hl, if_false]
      cases find_nearest_toilet E a loc with
      | error e => rfl
      | ok v =>
        cases v with
        | none => rfl
        | some info => rfl

/-- For a nonempty table, `find_nearest_toilet` never hits an error path. -/
theorem find_nearest_ok (E : NLP) (rows : List FacilityRow) (loc : String)
    (hrows : rows ≠ []) :
    ∃ v, find_nearest_toilet E (mkAgent rows) loc = .ok v := by
  by_cases hmem : loc ∈ (mkAgent rows).stop_names
  · obtain ⟨r, hr⟩ := filter_head_of_mem hmem
    exact ⟨some (toInfo r), by simp [find_nearest_toilet, hmem, hr]⟩
  · have hnames : (mkAgent rows).stop_names ≠ [] := by
      intro h
      exact hrows (List.map_eq_nil_iff.mp h)
    obtain ⟨c, hc'⟩ := @firstMax_isSome (E.wratio loc) (mkAgent rows).stop_names hnames
    have hone : extractOne (E.wratio loc) (mkAgent rows).stop_names =
        some (c, maxScore (E.wratio loc) (mkAgent rows).stop_names) := by
      rw [extractOne_eq, hc']
      rfl
    by_cases h60 : maxScore (E.wratio loc) (mkAgent rows).stop_names < 60
    · exact ⟨none, by simp [find_nearest_toilet, hmem, hone, h60]⟩
    · have hmemc : c ∈ (mkAgent rows).stop_names := (firstMax_mem hc').1
      obtain ⟨r, hr⟩ := filter_head_of_mem hmemc
      exact ⟨some (toInfo r), by simp [find_nearest_toilet, hmem, hone, h60, hr]⟩

/-- Claim C1: querying `process_query` with the exact `stop_name` of a table
row — with NER tagging the whole query as a location, the name nonempty, and
the row the first carrying its name — returns a success result whose stop and
facility fields (name, coordinates, washroom id, address, distance) all equal
that row's values. -/
theorem exact_stop_name_query (E : NLP) (rows : List FacilityRow) (row : FacilityRow)
    (hmem : row ∈ rows)
    (hner : E.ner row.stop_name = [row.stop_name])
    (hname : row.stop_name ≠ "")
    (hfirst : ((mkAgent rows).df.filter (fun x => x.stop_name == row.stop_name)).head? =
      some row) :
    process_query E (mkAgent rows) row.stop_name =
      .ok (successDict (toInfo row)
        (get_google_maps_link row.stop_lat row.stop_lon
          row.washroom_latitude row.washroom_longitude)) ∧
    ∀ res, process_query E (mkAgent rows) row.stop_name = .ok res →
      res.lookup "success" = some (.pyBool true) ∧
      res.lookup "stop_name" = some (.pyStr row.stop_name) ∧
      res.lookup "stop_lat" = some (.pyStr row.stop_lat) ∧
      res.lookup "stop_lon" = some (.pyStr row.stop_lon) ∧
      res.lookup "washroom_id" = some (.pyStr row.nearest_washroom_id) ∧
      res.lookup "washroom_lat" = some (.pyStr row.washroom_latitude) ∧
      res.lookup "washroom_lon" = some (.pyStr row.washroom_longitude) ∧
      res.lookup "washroom_address" = some (.pyStr row.washroom_address) ∧
      res.lookup "distance" = some (.pyStr row.distance) := by
  have hmem' : row.stop_name ∈ (mkAgent rows).stop_names :=
    List.mem_map_of_mem (fun r => r.stop_name) hmem
  have hc : (mkAgent rows).stop_names.contains row.stop_name = true := by
    simp [List.contains, hmem']
  have hext : extract_location E (mkAgent rows) row.stop_name = some row.stop_name := by
    simp [extract_location, hner]
  have hfind : find_nearest_toilet E (mkAgent rows) row.stop_name = .ok (some (toInfo row)) := by
    simp [find_nearest_toilet, hmem', hfirst]
  have hmain : process_query E (mkAgent rows) row.stop_name =
      .ok (successDict (toInfo row)
        (get_google_maps_link row.stop_lat row.stop_lon
          row.washroom_latitude row.washroom_longitude)) := by
    simp only [process_query, hext, hname, hfind, if_neg, ite_false]
    rfl
  refine ⟨hmain, ?_⟩
  intro res hres
  rw [hmain] at hres
  injection hres with h
  subst h
  exact ⟨rfl, rfl, rfl, rfl, rfl, rfl, rfl, rfl, rfl⟩

/-- Witness for C1 at the sample dataset's Connaught Place row. -/
theorem exact_stop_name_query_witness :
    connaughtRow ∈ sampleRows ∧
    Eecho.ner connaughtRow.stop_name = [connaughtRow.stop_name] ∧
    connaughtRow.stop_name ≠ "" ∧
    ((mkAgent sampleRows).df.filter
        (fun x => x.stop_name == connaughtRow.stop_name)).head? = some connaughtRow ∧
    process_query Eecho (mkAgent sampleRows) connaughtRow.stop_name =
      .ok (successDict (toInfo connaughtRow)
        (get_google_maps_link connaughtRow.stop_lat connaughtRow.stop_lon
          connaughtRow.washroom_latitude connaughtRow.washroom_longitude)) :=
  ⟨by decide, rfl, by decide, by decide,
    (exact_stop_name_query Eecho sampleRows connaughtRow (by decide) rfl (by decide)
      (by decide)).1⟩

/-- Claim C2: every successful `process_query` result is a success dict over
some matched record, and its directions link is exactly the fixed-format
Google-Maps walking URL with the matched stop's coordinates as origin and the
facility's coordinates as destination. -/
theorem maps_link_shape (E : NLP) (a : Agent) (q : String)
    (res : List (String × PyVal))
    (hok : process_query E a q = .ok res)
    (hsucc : res.lookup "success" = some (.pyBool true)) :
    ∃ info : ToiletInfo,
      res = successDict info
        (get_google_maps_link info.stop_lat info.stop_lon
          info.washroom_lat info.washroom_lon) ∧
      res.lookup "directions_link" =
        some (.pyStr ("https://www.google.com/maps/dir/?api=1&origin=" ++ info.stop_lat ++
          "," ++ info.stop_lon ++ "&destination=" ++ info.washroom_lat ++ "," ++
          info.washroom_lon ++ "&travelmode=walking")) := by
  cases hext : extract_location E a q with
  | none =>
    have hpq : process_query E a q = .ok noLocationResult := by simp [process_query, hext]
    rw [hpq] at hok
    injection hok with h
    subst h
    exact absurd hsucc (by decide)
  | some loc =>
    by_cases hl : loc = ""
    · have hpq : process_query E a q = .ok noLocationResult := by
        simp [process_query, hext, hl]
      rw [hpq] at hok
      injection hok with h
      subst h
      exact absurd hsucc (by decide)
    · cases hfind : find_nearest_toilet E a loc with
      | error e =>
        have hpq : process_query E a q = .error e := by simp [process_query, hext, hl, hfind]
        rw [hpq] at hok
        exact absurd hok (by simp)
      | ok v =>
        cases v with
        | none =>
          have hpq : process_query E a q = .ok (noMatchResult loc) := by
            simp [process_query, hext, hl, hfind]
          rw [hpq] at hok
          injection hok with h
          subst h
          have hfalse : (noMatchResult loc).lookup "success" = some (.pyBool false) := rfl
          rw [hfalse] at hsucc
          exact absurd hsucc (by simp)
        | some info =>
          have hpq : process_query E a q =
              .ok (successDict info
                (get_google_maps_link info.stop_lat info.stop_lon
                  info.washroom_lat info.washroom_lon)) := by
            simp [process_query, hext, hl, hfind]
          rw [hpq] at hok
          injection hok with h
          subst h
          exact ⟨info, rfl, rfl⟩

/-- Witness for C2 at the success result for the exact query
"Connaught Place" against the sample table. -/
theorem maps_link_shape_witness :
    ∃ info : ToiletInfo,
      successDict (toInfo connaughtRow)
          (get_google_maps_link connaughtRow.stop_lat connaughtRow.stop_lon
            connaughtRow.washroom_latitude connaughtRow.washroom_longitude) =
        successDict info
          (get_google_maps_link info.stop_lat info.stop_lon
            info.washroom_lat info.washroom_lon) ∧
      (successDict (toInfo connaughtRow)
          (get_google_maps_link connaughtRow.stop_lat connaughtRow.stop_lon
            connaughtRow.washroom_latitude connaughtRow.washroom_longitude)).lookup
          "directions_link" =
        some (.pyStr ("https://www.google.com/maps/dir/?api=1&origin=" ++ info.stop_lat ++
          "," ++ info.stop_lon ++ "&destination=" ++ info.washroom_lat ++ "," ++
          info.washroom_lon ++ "&travelmode=walking")) :=
  maps_link_shape Eecho sampleAgent "Connaught Place" _ rfl (by decide)

/-- Claim C4: when NER finds no location entity (and no stop name is the empty
string), `extract_location` returns the first stop name attaining the maximal
partial-ratio score against the filtered query exactly when that maximum
strictly exceeds 70, and `none` otherwise. -/
theorem extract_location_fuzzy_argmax (E : NLP) (a : Agent) (q : String)
    (hner : E.ner q = []) (hempty : "" ∉ a.stop_names) :
    extract_location E a q =
      if 70 < maxScore (fun n => E.pRatio (E.tokenizeFilter q) (pyLower n)) a.stop_names
      then firstMax (fun n => E.pRatio (E.tokenizeFilter q) (pyLower n)) a.stop_names
      else none := by
  rw [extract_location_fb E a q hner, fuzzyBest_eq]
  by_cases h70 : 70 < maxScore (fun n => E.pRatio (E.tokenizeFilter q) (pyLower n)) a.stop_names
  · rw [if_pos h70, if_pos h70]
    cases hfm : firstMax (fun n => E.pRatio (E.tokenizeFilter q) (pyLower n)) a.stop_names with
    | none => rfl
    | some best =>
      have hb : best ≠ "" := by
        intro h
        subst h
        exact hempty (firstMax_mem hfm).1
      simp [hb]
  · rw [if_neg h70, if_neg h70]

/-- Witness for C4: with the length-based scorer, the fuzzy fallback picks
Connaught Place (score 105) over the other sample stops. -/
theorem extract_location_fuzzy_argmax_witness :
    Elen.ner "washroom please" = [] ∧
    ("" ∉ sampleAgent.stop_names) ∧
    extract_location Elen sampleAgent "washroom please" =
      (if 70 < maxScore
          (fun n => Elen.pRatio (Elen.tokenizeFilter "washroom please") (pyLower n))
          sampleAgent.stop_names
       then firstMax
          (fun n => Elen.pRatio (Elen.tokenizeFilter "washroom please") (pyLower n))
          sampleAgent.stop_names
       else none) ∧
    extract_location Elen sampleAgent "washroom please" = some "Connaught Place" :=
  ⟨rfl, by decide,
    extract_location_fuzzy_argmax Elen sampleAgent "washroom please" rfl (by decide),
    by decide⟩

/-- Claim C8: a query in which NER finds no location entity and whose filtered
form scores at most 70 against every stop name produces the
no-location-identified failure result. -/
theorem stopword_query_no_location (E : NLP) (a : Agent) (q : String)
    (hner : E.ner q = [])
    (hlow : ∀ n ∈ a.stop_names, E.pRatio (E.tokenizeFilter q) (pyLower n) ≤ 70) :
    process_query E a q = .ok noLocationResult := by
  have hmax : maxScore (fun n => E.pRatio (E.tokenizeFilter q) (pyLower n)) a.stop_names ≤ 70 :=
    maxScore_le_of_forall hlow
  have hext : extract_location E a q = none := by
    rw [extract_location_fb E a q hner, fuzzyBest_eq, if_neg (by omega)]
  simp [process_query, hext]

/-- Witness for C8 at the query "please help me" with the zero-scoring test
environment. -/
theorem stopword_query_no_location_witness :
    Enull.ner "please help me" = [] ∧
    (∀ n ∈ sampleAgent.stop_names,
      Enull.pRatio (Enull.tokenizeFilter "please help me") (pyLower n) ≤ 70) ∧
    process_query Enull sampleAgent "please help me" = .ok noLocationResult :=
  ⟨rfl, by decide,
    stopword_query_no_location Enull sampleAgent "please help me" rfl (by decide)⟩

/-- Claim C3: `find_nearest_toilet` uses the name directly on an exact
stop-name match; otherwise it best-matches the name against all stop names by
highest overall similarity score, returns `none` exactly when the best score
is below 60, and returns the record of the best-scoring stop name otherwise. -/
theorem find_nearest_toilet_spec (E : NLP) (rows : List FacilityRow) (loc : String) :
    (loc ∈ (mkAgent rows).stop_names →
      ∃ r, ((mkAgent rows).df.filter (fun x => x.stop_name == loc)).head? = some r ∧
        find_nearest_toilet E (mkAgent rows) loc = .ok (some (toInfo r))) ∧
    (loc ∉ (mkAgent rows).stop_names → rows ≠ [] →
      ∃ c, firstMax (E.wratio loc) (mkAgent rows).stop_names = some c ∧
        extractOne (E.wratio loc) (mkAgent rows).stop_names =
          some (c, maxScore (E.wratio loc) (mkAgent rows).stop_names) ∧
        (find_nearest_toilet E (mkAgent rows) loc = .ok none ↔
          maxScore (E.wratio loc) (mkAgent rows).stop_names < 60) ∧
        (60 ≤ maxScore (E.wratio loc) (mkAgent rows).stop_names →
          ∃ r, ((mkAgent rows).df.filter (fun x => x.stop_name == c)).head? = some r ∧
            find_nearest_toilet E (mkAgent rows) loc = .ok (some (toInfo r)))) := by
  constructor
  · intro hmem
    obtain ⟨r, hr⟩ := filter_head_of_mem hmem
    exact ⟨r, hr, by simp [find_nearest_toilet, hmem, hr]⟩
  · intro hnot hrows
    have hnames : (mkAgent rows).stop_names ≠ [] := by
      intro h
      exact hrows (List.map_eq_nil_iff.mp h)
    obtain ⟨c, hc'⟩ := @firstMax_isSome (E.wratio loc) (mkAgent rows).stop_names hnames
    have hone : extractOne (E.wratio loc) (mkAgent rows).stop_names =
        some (c, maxScore (E.wratio loc) (mkAgent rows).stop_names) := by
      rw [extractOne_eq, hc']
      rfl
    have hmemc : c ∈ (mkAgent rows).stop_names := (firstMax_mem hc').1
    obtain ⟨r, hr⟩ := filter_head_of_mem hmemc
    refine ⟨c, hc', hone, ?_, ?_⟩
    · constructor
      · intro h
        by_contra h60
        have hsucc : find_nearest_toilet E (mkAgent rows) loc = .ok (some (toInfo r)) := by
          simp [find_nearest_toilet, hnot, hone, h60, hr]
        rw [hsucc] at h
        exact absurd h (by simp)
      · intro h60
        simp [find_nearest_toilet, hnot, hone, h60]
    · intro h60
      have h60' : ¬ maxScore (E.wratio loc) (mkAgent rows).stop_names < 60 := by omega
      exact ⟨r, hr, by simp [find_nearest_toilet, hnot, hone, h60', hr]⟩

/-- Witness for C3: the misspelled name "Conaught Plaza" is not an exact stop
name; with the length-based scorer, the best match is Connaught Place with
score 75 which is at least 60, so its record is returned. -/
theorem find_nearest_toilet_spec_witness :
    ("Conaught Plaza" ∉ (mkAgent sampleRows).stop_names) ∧
    sampleRows ≠ [] ∧
    (∃ c, firstMax (Elen.wratio "Conaught Plaza") (mkAgent sampleRows).stop_names = some c ∧
      extractOne (Elen.wratio "Conaught Plaza") (mkAgent sampleRows).stop_names =
        some (c, maxScore (Elen.wratio "Conaught Plaza") (mkAgent sampleRows).stop_names) ∧
      (find_nearest_toilet Elen (mkAgent sampleRows) "Conaught Plaza" = .ok none ↔
        maxScore (Elen.wratio "Conaught Plaza") (mkAgent sampleRows).stop_names < 60) ∧
      (60 ≤ maxScore (Elen.wratio "Conaught Plaza") (mkAgent sampleRows).stop_names →
        ∃ r, ((mkAgent sampleRows).df.filter (fun x => x.stop_name == c)).head? = some r ∧
          find_nearest_toilet Elen (mkAgent sampleRows) "Conaught Plaza" =
            .ok (some (toInfo r)))) :=
  ⟨by decide, by decide,
    (find_nearest_toilet_spec Elen sampleRows "Conaught Plaza").2 (by decide) (by decide)⟩

/-- Claim C5: on a nonempty table, `process_query` always returns a result
(no exception escapes); a failure result is either the no-location-identified
dict or the no-matching-stop dict with the extracted name interpolated, and
every other result has `success = true`. -/
theorem process_query_failure_modes (E : NLP) (rows : List FacilityRow) (q : String)
    (hrows : rows ≠ []) :
    ∃ res, process_query E (mkAgent rows) q = .ok res ∧
      (((extract_location E (mkAgent rows) q = none ∨
          extract_location E (mkAgent rows) q = some "") ∧ res = noLocationResult) ∨
       (∃ loc, extract_location E (mkAgent rows) q = some loc ∧ loc ≠ "" ∧
          find_nearest_toilet E (mkAgent rows) loc = .ok none ∧ res = noMatchResult loc) ∨
       res.lookup "success" = some (.pyBool true)) := by
  cases hext : extract_location E (mkAgent rows) q with
  | none =>
    exact ⟨noLocationResult, by simp [process_query, hext], Or.inl ⟨Or.inl rfl, rfl⟩⟩
  | some loc =>
    by_cases hl : loc = ""
    · subst hl
      exact ⟨noLocationResult, by simp [process_query, hext], Or.inl ⟨Or.inr rfl, rfl⟩⟩
    · obtain ⟨v, hv⟩ := find_nearest_ok E rows loc hrows
      cases v with
      | none =>
        exact ⟨noMatchResult loc, by simp [process_query, hext, hl, hv],
          Or.inr (Or.inl ⟨loc, rfl, hl, hv, rfl⟩)⟩
      | some info =>
        refine ⟨successDict info (get_google_maps_link info.stop_lat info.stop_lon
            info.washroom_lat info.washroom_lon), ?_, Or.inr (Or.inr rfl)⟩
        simp [process_query, hext, hl, hv]

/-- Witness for C5 at the query "please help me" with the zero-scoring
environment and the sample table. -/
theorem process_query_failure_modes_witness :
    sampleRows ≠ [] ∧
    (∃ res, process_query Enull (mkAgent sampleRows) "please help me" = .ok res ∧
      (((extract_location Enull (mkAgent sampleRows) "please help me" = none ∨
          extract_location Enull (mkAgent sampleRows) "please help me" = some "") ∧
          res = noLocationResult) ∨
       (∃ loc, extract_location Enull (mkAgent sampleRows) "please help me" = some loc ∧
          loc ≠ "" ∧ find_nearest_toilet Enull (mkAgent sampleRows) loc = .ok none ∧
          res = noMatchResult loc) ∨
       res.lookup "success" = some (.pyBool true))) :=
  ⟨by decide, process_query_failure_modes Enull sampleRows "please help me" (by decide)⟩

/-- Claim C6: `process_query` is deterministic and idempotent — re-running the
identical query from the post-state of a first run returns the identical
state-and-result pair. -/
theorem process_query_idempotent (E : NLP) (a : Agent) (q : String) :
    process_query_st E (process_query_st E a q).1 q = process_query_st E a q := by
  rw [process_query_st_eq E a q]
  exact process_query_st_eq E a q

/-- Claim C9: the reference table and stop-name index are fixed at
construction, and none of the agent's operations changes the agent state. -/
theorem agent_state_immutable (E : NLP) (a : Agent) (rows : List FacilityRow)
    (q loc lat1 lon1 lat2 lon2 : String) :
    (mkAgent rows).df = rows ∧
    (mkAgent rows).stop_names = rows.map (fun r => r.stop_name) ∧
    (extract_location_st E a q).1 = a ∧
    (find_nearest_toilet_st E a loc).1 = a ∧
    (get_google_maps_link_st a lat1 lon1 lat2 lon2).1 = a ∧
    (process_query_st E a q).1 = a := by
  refine ⟨rfl, rfl, rfl, rfl, rfl, ?_⟩
  rw [process_query_st_eq]

/-- Counterexample for C7: the failure result of a no-location query carries
exactly the keys `success` and `message`; no `matched_record`, `maps_link` or
`directions_link` component is present (as none or otherwise). -/
theorem result_shape_counterexample :
    process_query Enull sampleAgent "please help me" = .ok noLocationResult ∧
    noLocationResult.lookup "matched_record" = none ∧
    noLocationResult.lookup "maps_link" = none ∧
    noLocationResult.lookup "directions_link" = none ∧
    noLocationResult.map Prod.fst = ["success", "message"] :=
  ⟨rfl, rfl, rfl, rfl, rfl⟩

/-- Claim C7 as amended: every result returned by `process_query` has one of
exactly two key shapes — failures carry exactly `success` (false) and
`message`; successes carry exactly `success` (true), the inlined record
fields, `directions_link` and `message`.  The matched-record and maps-link
components are absent on failures, not present as none. -/
theorem result_shape_amended (E : NLP) (a : Agent) (q : String)
    (res : List (String × PyVal)) (hok : process_query E a q = .ok res) :
    (res.map Prod.fst = ["success", "message"] ∧
      res.lookup "success" = some (.pyBool false)) ∨
    (res.map Prod.fst = ["success", "stop_name", "stop_lat", "stop_lon", "washroom_id",
        "washroom_lat", "washroom_lon", "washroom_address", "distance", "directions_link",
        "message"] ∧
      res.lookup "success" = some (.pyBool true)) := by
  cases hext : extract_location E a q with
  | none =>
    have hpq : process_query E a q = .ok noLocationResult := by simp [process_query, hext]
    rw [hpq] at hok
    injection hok with h
    subst h
    exact Or.inl ⟨rfl, rfl⟩
  | some loc =>
    by_cases hl : loc = ""
    · have hpq : process_query E a q = .ok noLocationResult := by
        simp [process_query, hext, hl]
      rw [hpq] at hok
      injection hok with h
      subst h
      exact Or.inl ⟨rfl, rfl⟩
    · cases hfind : find_nearest_toilet E a loc with
      | error e =>
        have hpq : process_query E a q = .error e := by simp [process_query, hext, hl, hfind]
        rw [hpq] at hok
        exact absurd hok (by simp)
      | ok v =>
        cases v with
        | none =>
          have hpq : process_query E a q = .ok (noMatchResult loc) := by
            simp [process_query, hext, hl, hfind]
          rw [hpq] at hok
          injection hok with h
          subst h
          exact Or.inl ⟨rfl, rfl⟩
        | some info =>
          have hpq : process_query E a q =
              .ok (successDict info
                (get_google_maps_link info.stop_lat info.stop_lon
                  info.washroom_lat info.washroom_lon)) := by
            simp [process_query, hext, hl, hfind]
          rw [hpq] at hok
          injection hok with h
          subst h
          exact Or.inr ⟨rfl, rfl⟩

/-- Witness for the amended C7 at a failure result. -/
theorem result_shape_amended_witness :
    (noLocationResult.map Prod.fst = ["success", "message"] ∧
      noLocationResult.lookup "success" = some (.pyBool false)) ∨
    (noLocationResult.map Prod.fst = ["success", "stop_name", "stop_lat", "stop_lon",
        "washroom_id", "washroom_lat", "washroom_lon", "washroom_address", "distance",
        "directions_link", "message"] ∧
      noLocationResult.lookup "success" = some (.pyBool true)) :=
  result_shape_amended Enull sampleAgent "please help me" noLocationResult rfl

/-- Claim C10: when NER finds no entity, any name produced by the fuzzy
fallback of `extract_location` is a known stop name, so `find_nearest_toilet`
takes the exact-match branch and `process_query` can only return the
no-location failure or a success — never the no-matching-stop failure. -/
theorem fallback_name_always_known (E : NLP) (rows : List FacilityRow) (q : String)
    (hner : E.ner q = []) :
    (∀ name, extract_location E (mkAgent rows) q = some name →
      name ∈ (mkAgent rows).stop_names) ∧
    (process_query E (mkAgent rows) q = .ok noLocationResult ∨
      ∃ info, process_query E (mkAgent rows) q =
        .ok (successDict info
          (get_google_maps_link info.stop_lat info.stop_lon
            info.washroom_lat info.washroom_lon))) := by
  have hfb := extract_location_fb E (mkAgent rows) q hner
  have hmem : ∀ name, extract_location E (mkAgent rows) q = some name →
      name ∈ (mkAgent rows).stop_names ∧ name ≠ "" := by
    intro name hname
    rw [hfb] at hname
    split at hname
    next best hfz =>
      by_cases hb : best = ""
      · rw [if_pos hb] at hname
        exact absurd hname (by simp)
      · rw [if_neg hb] at hname
        injection hname with h
        subst h
        rw [fuzzyBest_eq] at hfz
        by_cases h70 : 70 < maxScore (fun n => E.pRatio (E.tokenizeFilter q) (pyLower n))
            (mkAgent rows).stop_names
        · rw [if_pos h70] at hfz
          have hfm : firstMax (fun n => E.pRatio (E.tokenizeFilter q) (pyLower n))
              (mkAgent rows).stop_names = some best := hfz
          exact ⟨(firstMax_mem hfm).1, hb⟩
        · rw [if_neg h70] at hfz
          exact absurd hfz (by simp)
    next hfz =>
      exact absurd hname (by simp)
  refine ⟨fun name h => (hmem name h).1, ?_⟩
  cases hext : extract_location E (mkAgent rows) q with
  | none => exact Or.inl (by simp [process_query, hext])
  | some name =>
    obtain ⟨hm, hne⟩ := hmem name hext
    obtain ⟨r, hr⟩ := filter_head_of_mem hm
    have hfind : find_nearest_toilet E (mkAgent rows) name = .ok (some (toInfo r)) := by
      simp [find_nearest_toilet, hm, hr]
    exact Or.inr ⟨toInfo r, by simp [process_query, hext, hne, hfind]⟩

/-- Witness for C10 with the length-based scorer, where the fallback yields
the known stop name Connaught Place. -/
theorem fallback_name_always_known_witness :
    Elen.ner "washroom please" = [] ∧
    ((∀ name, extract_location Elen (mkAgent sampleRows) "washroom please" = some name →
      name ∈ (mkAgent sampleRows).stop_names) ∧
    (process_query Elen (mkAgent sampleRows) "washroom please" = .ok noLocationResult ∨
      ∃ info, process_query Elen (mkAgent sampleRows) "washroom please" =
        .ok (successDict info
          (get_google_maps_link info.stop_lat info.stop_lon
            info.washroom_lat info.washroom_lon)))) :=
  ⟨rfl, fallback_name_always_known Elen sampleRows "washroom please" rfl⟩

end ToiletLocator
